import Mathlib

/-!
Shallow embedding of the etcd C++ client's Watch subsystem
(src/include/watch.hpp, with the transport contract of
src/include/internal/curl.hpp), together with theorems checking the
natural-language specification against it.

The engine's interaction with the outside world (one blocking HTTP GET per
iteration, reply decoding, the user callback) is modelled by an oracle: each
loop iteration consumes one `IterEvent` describing the outcome of the
transport fetch, the decode, the callback, and — when the stale-index
recovery sub-protocol runs — the outcome of its internal steps.  The engine
itself (URL construction, cursor bookkeeping, failure budget, header
scanning) is translated directly from the source.
-/

namespace EtcdWatch

/-- MAX_FAILURES from watch.hpp (`#define MAX_FAILURES 5`). -/
def MAX_FAILURES : Nat := 5

/-- Modelled from the spec: `Index` is declared in client.hpp, which is not
under src/; §3 of the spec describes it as an unsigned monotonically
non-decreasing integer, so it is modelled as `Nat`. -/
def Index : Type := Nat

/-- Configuration fixed for one `Run`/`RunOnce` call: the engine's
`url_prefix_` member and the `key` argument. -/
structure WatchCfg where
  url_prefix_ : String
  key : String
deriving Repr, DecidableEq

/-- `watch_url_base` local of `Run`/`RunOnce`: `url_prefix_ + key + "?wait=true"`. -/
def watch_url_base (cfg : WatchCfg) : String :=
  cfg.url_prefix_ ++ cfg.key ++ "?wait=true"

/-- `wait_url_base` local of `Run`/`RunOnce`: `watch_url_base + "&waitIndex="`. -/
def wait_url_base (cfg : WatchCfg) : String :=
  watch_url_base cfg ++ "&waitIndex="

/-- The mutable state a `Run`/`RunOnce` call operates on: the engine member
`prev_index_`, the loop-local `watch_url` and `max_failures`, and the
transport's `enable_header_` flag (curl.hpp). -/
structure WatchState where
  prev_index_ : Nat
  watch_url : String
  max_failures : Nat
  enable_header_ : Bool
deriving Repr, DecidableEq

/-- Observable actions of one call: HTTP GET requests issued and callback
invocations (with the decoded reply's modified index; snapshot invocations
are the ones made by the recovery sub-protocol). -/
inductive Act
  | request (url : String)
  | callbackWatch (modifiedIndex : Nat)
  | callbackSnapshot (modifiedIndex : Nat)
deriving Repr, DecidableEq

/-- Oracle for one execution of the stale-index recovery sub-protocol:
whether the bare GET plus decode succeed, the snapshot reply's modified
index, whether the callback returns normally, and the raw header text the
transport captured (`Curl::GetHeader`). -/
structure RecoveryEvent where
  fetchOk : Bool
  snapshotIndex : Nat
  callbackOk : Bool
  headerText : String
deriving Repr, DecidableEq

/-- Modelled from the spec: outcome of `handle_->Get` followed by
`Reply r(ret)`.  The Reply class (rapid_reply.hpp) and its `ReplyException`
(client.hpp) are not under src/; §2 of the spec says the decode signals a
server-side error body via an exception carrying a numeric error code, and
any transport/decode failure is a `std::exception` carrying a message. -/
inductive FetchOutcome
  | success (modifiedIndex : Nat)
  | replyExc (code : Int)
  | stdExc (msg : String)
deriving Repr, DecidableEq

/-- Outcome of the user callback on a successful watch reply: it may return
normally or throw (a `ReplyException` with a code, or some other exception
derived from `std::exception`). -/
inductive CbOutcome
  | ok
  | throwReply (code : Int)
  | throwStd (msg : String)
deriving Repr, DecidableEq

/-- Oracle for one iteration of the watch loop. `recov` is consulted only
when the iteration enters the stale-index recovery sub-protocol. -/
structure IterEvent where
  fetch : FetchOutcome
  cb : CbOutcome
  recov : RecoveryEvent
deriving Repr, DecidableEq

/-! ### Header scanning (`std::getline` / `find` / `substr` / `std::stoi`) -/

/-- Lines of a character stream as `std::getline` yields them: split on
newline, with no spurious empty line after a trailing newline. -/
def getlineLines : List Char → List (List Char)
  | [] => []
  | c :: cs =>
      if c = '\n' then [] :: getlineLines cs
      else
        match getlineLines cs with
        | [] => [[c]]
        | l :: ls => (c :: l) :: ls

/-- Whether `label` occurs as a contiguous substring of `l`
(`line.find(label) != std::string::npos`). -/
def hasInfix (label : List Char) : List Char → Bool
  | [] => label.isEmpty
  | c :: cs => label.isPrefixOf (c :: cs) || hasInfix label cs

/-- Characters `std::isspace` accepts in the default locale. -/
def isSpaceCpp (c : Char) : Bool :=
  c = ' ' || c = '\t' || c = '\n' || c = '\x0b' || c = '\x0c' || c = '\r'

/-- Decimal value of a digit run. -/
def digitsToNat (ds : List Char) : Nat :=
  List.foldl (fun a c => a * 10 + (c.toNat - '0'.toNat)) 0 ds

/-- `std::stoi`: skip whitespace, optional sign, longest digit run; `none`
models the `std::invalid_argument` (no digits) and `std::out_of_range`
(outside `int`) exceptions. -/
def stoiCpp (s : String) : Option Int :=
  let parseFrom : Int → List Char → Option Int := fun sign rest =>
    let ds := rest.takeWhile Char.isDigit
    if ds.isEmpty then none
    else
      let v : Int := sign * (digitsToNat ds : Nat)
      if v < -(2 ^ 31) ∨ (2 ^ 31 - 1 : Int) < v then none else some v
  match s.data.dropWhile isSpaceCpp with
  | '-' :: rest => parseFrom (-1) rest
  | '+' :: rest => parseFrom 1 rest
  | cs => parseFrom 1 cs

/-- `line.substr(n)` on ASCII header text: drop the first `n` characters. -/
def substrFrom (l : List Char) (n : Nat) : String :=
  String.mk (l.drop n)

/-- Assignment of an `int` to the unsigned `Index` member
(`prev_index_ = std::stoi(...)`): conversion modulo 2^64. -/
def intToIndex (i : Int) : Nat :=
  (i % (2 ^ 64 : Int)).toNat

/-- `etcd_index_label` local of the recovery code: `"X-Etcd-Index: "`. -/
def etcd_index_label : String := "X-Etcd-Index: "

/-- Result of the header-scanning `while (std::getline(...))` loop:
a value parsed from the first matching line, no matching line, or a
`std::stoi` throw. -/
inductive ScanResult
  | found (v : Int)
  | notFound
  | excThrown
deriving Repr, DecidableEq

/-- The scanning loop, exactly as written: `pos` receives the *boolean*
`line.find(label) != npos` (the parenthesization bug noted in §9 of the
spec), so on a match `pos = 1` and the parse reads
`line.substr(pos + len - 1) = line.substr(14)`. -/
def scanLines : List (List Char) → ScanResult
  | [] => .notFound
  | line :: rest =>
      let pos : Nat := if hasInfix etcd_index_label.data line then 1 else 0
      if pos ≠ 0 then
        match stoiCpp (substrFrom line (pos + etcd_index_label.length - 1)) with
        | some v => .found v
        | none => .excThrown
      else scanLines rest

/-- Scan of the full captured header text. -/
def scanHeaderText (s : String) : ScanResult :=
  scanLines (getlineLines s.data)

/-! ### The stale-index recovery sub-protocol (watch.hpp lines 131–157 and
203–229, identical in `Run` and `RunOnce`) -/

/-- One execution of the recovery sub-protocol, starting from state `st`:
enable header capture, bare GET on `url_prefix_ + key`, decode, callback,
header scan, disable header capture, recompute `watch_url`.  Every
exception is caught by the surrounding `catch (...) {}`, abandoning the
remaining steps. -/
def runRecovery (cfg : WatchCfg) (st : WatchState) (rev : RecoveryEvent) :
    WatchState × List Act :=
  -- handle_->EnableHeader(true);
  let st1 : WatchState := { st with enable_header_ := true }
  -- std::string ret = handle_->Get(url_prefix_ + key); Reply r(ret);
  let acts : List Act := [Act.request (cfg.url_prefix_ ++ cfg.key)]
  if !rev.fetchOk then
    -- Get or Reply construction threw: swallowed by catch (...)
    (st1, acts)
  else
    -- callback(r);
    let acts := acts ++ [Act.callbackSnapshot rev.snapshotIndex]
    if !rev.callbackOk then
      -- the callback threw: swallowed by catch (...)
      (st1, acts)
    else
      match scanHeaderText rev.headerText with
      | .excThrown => (st1, acts)  -- std::stoi threw: swallowed by catch (...)
      | .found v =>
          let st2 : WatchState := { st1 with prev_index_ := intToIndex v }
          ({ st2 with
              enable_header_ := false,
              watch_url := wait_url_base cfg ++ toString (st2.prev_index_ + 1) },
            acts)
      | .notFound =>
          ({ st1 with
              enable_header_ := false,
              watch_url := wait_url_base cfg ++ toString (st1.prev_index_ + 1) },
            acts)

/-- `max_failures--`. -/
def failDec (st : WatchState) : WatchState :=
  { st with max_failures := st.max_failures - 1 }

/-- The `catch (const ReplyException& e)` handler body of `Run`: recovery on
error code 401, then `max_failures--` unconditionally. -/
def handleReplyExc (cfg : WatchCfg) (st : WatchState) (code : Int)
    (rev : RecoveryEvent) : WatchState × List Act :=
  if code = 401 then
    let (st', acts) := runRecovery cfg st rev
    (failDec st', acts)
  else
    (failDec st, [])

/-- One iteration of `Run`'s `while (max_failures)` loop body, driven by the
oracle event `ev`.  Returns the state after the iteration and the actions it
performed. -/
def runIter (cfg : WatchCfg) (st : WatchState) (ev : IterEvent) :
    WatchState × List Act :=
  let req := Act.request st.watch_url
  match ev.fetch with
  | .success i =>
      let cbAct := Act.callbackWatch i
      match ev.cb with
      | .ok =>
          -- prev_index_ = r.get_modified_index(); watch_url = wait_url_base + ...;
          -- max_failures = MAX_FAILURES;
          ({ st with
              prev_index_ := i,
              watch_url := wait_url_base cfg ++ toString (i + 1),
              max_failures := MAX_FAILURES },
            [req, cbAct])
      | .throwReply code =>
          -- the callback threw a ReplyException: caught by the same handler
          let (st', acts) := handleReplyExc cfg st code ev.recov
          (st', req :: cbAct :: acts)
      | .throwStd _ =>
          -- caught by catch (const std::exception&): max_failures--
          (failDec st, [req, cbAct])
  | .replyExc code =>
      let (st', acts) := handleReplyExc cfg st code ev.recov
      (st', req :: acts)
  | .stdExc _ =>
      (failDec st, [req])

/-- How a `Run` call ends (or has not yet ended). -/
inductive RunOutcome
  | clientError (msg : String) (st : WatchState)
  | normalReturn (st : WatchState)
  | pending (st : WatchState)
deriving Repr, DecidableEq

/-- The state an outcome carries. -/
def RunOutcome.state : RunOutcome → WatchState
  | .clientError _ st => st
  | .normalReturn st => st
  | .pending st => st

/-- The code after `Run`'s loop: `if (! max_failures) throw
ClientException("watch failed or timedout"); return;`. -/
def runExit (st : WatchState) : RunOutcome :=
  if st.max_failures = 0 then .clientError "watch failed or timedout" st
  else .normalReturn st

/-- `Run`'s `while (max_failures)` loop over a finite oracle trace.  If the
trace is exhausted while the budget is still positive the call is still
blocked in its next `Get` (`pending`). -/
def runAux (cfg : WatchCfg) (st : WatchState) :
    List IterEvent → List Act × RunOutcome
  | [] =>
      if st.max_failures = 0 then ([], runExit st) else ([], .pending st)
  | ev :: evs =>
      if st.max_failures = 0 then ([], runExit st)
      else
        let (st', acts) := runIter cfg st ev
        let (acts', out) := runAux cfg st' evs
        (acts ++ acts', out)

/-- The entry of `Run`/`RunOnce` (watch.hpp lines 100–112 resp. 178–188):
initial `watch_url` and `prev_index_` from the `prevIndex` argument and the
cached cursor.  Note the source appends the bare number to `watch_url`
(which still equals `watch_url_base`), not to `wait_url_base`. -/
def runInit (cfg : WatchCfg) (enginePrev : Nat) (headerOn : Bool)
    (prevIndex : Nat) : WatchState :=
  let base := watch_url_base cfg
  if prevIndex ≠ 0 then
    { prev_index_ := prevIndex,
      watch_url := base ++ toString (prevIndex + 1),
      max_failures := MAX_FAILURES,
      enable_header_ := headerOn }
  else if enginePrev ≠ 0 then
    { prev_index_ := enginePrev,
      watch_url := base ++ toString (enginePrev + 1),
      max_failures := MAX_FAILURES,
      enable_header_ := headerOn }
  else
    { prev_index_ := enginePrev,
      watch_url := base,
      max_failures := MAX_FAILURES,
      enable_header_ := headerOn }

/-- `Watch::Run` over a finite oracle trace, from an engine whose cached
cursor is `enginePrev` and whose transport header flag is `headerOn`. -/
def watchRun (cfg : WatchCfg) (enginePrev : Nat) (headerOn : Bool)
    (prevIndex : Nat) (evs : List IterEvent) : List Act × RunOutcome :=
  runAux cfg (runInit cfg enginePrev headerOn prevIndex) evs

/-- How a `RunOnce` call ends. -/
inductive OnceOutcome
  | normalReturn (st : WatchState)
  | clientError (msg : String) (st : WatchState)
deriving Repr, DecidableEq

/-- The state a `RunOnce` outcome carries. -/
def OnceOutcome.state : OnceOutcome → WatchState
  | .normalReturn st => st
  | .clientError _ st => st

/-- `Watch::RunOnce` (watch.hpp lines 172–234): same URL construction as
`Run`, a single iteration, no retry loop.  A `ReplyException` with code 401
triggers the recovery sub-protocol and a normal return; a `ReplyException`
with any other code falls through its handler and returns normally; any
other `std::exception` is rethrown as
`ClientException("failed with" + e.what())`. -/
def runOnce (cfg : WatchCfg) (enginePrev : Nat) (headerOn : Bool)
    (prevIndex : Nat) (ev : IterEvent) : OnceOutcome × List Act :=
  let st := runInit cfg enginePrev headerOn prevIndex
  let req := Act.request st.watch_url
  match ev.fetch with
  | .success i =>
      let cbAct := Act.callbackWatch i
      match ev.cb with
      | .ok =>
          (.normalReturn { st with
              prev_index_ := i,
              watch_url := wait_url_base cfg ++ toString (i + 1) },
            [req, cbAct])
      | .throwReply code =>
          if code = 401 then
            let (st', acts) := runRecovery cfg st ev.recov
            (.normalReturn st', req :: cbAct :: acts)
          else
            (.normalReturn st, [req, cbAct])
      | .throwStd msg =>
          (.clientError ("failed with" ++ msg) st, [req, cbAct])
  | .replyExc code =>
      if code = 401 then
        let (st', acts) := runRecovery cfg st ev.recov
        (.normalReturn st', req :: acts)
      else
        (.normalReturn st, [req])
  | .stdExc msg =>
      (.clientError ("failed with" ++ msg) st, [req])

/-! ### Iteration classification -/

/-- A fully successful watch iteration: transport and decode succeed and the
callback returns normally. -/
def iterSucceeds (ev : IterEvent) : Bool :=
  match ev.fetch, ev.cb with
  | .success _, .ok => true
  | .success _, _ => false
  | _, _ => false

/-- An iteration that fails (anything short of full success). -/
def iterFails (ev : IterEvent) : Bool :=
  ! iterSucceeds ev

/-- A concrete configuration used by witnesses and counterexamples. -/
def mkCfg : WatchCfg :=
  { url_prefix_ := "http://example:2379/v2/keys", key := "/k" }

/-- A recovery oracle whose bare GET fails (its contents are otherwise
irrelevant for iterations that never reach recovery). -/
def revNone : RecoveryEvent :=
  { fetchOk := false, snapshotIndex := 0, callbackOk := false, headerText := "" }

/-- A transport-failure iteration (curl timeout: `std::exception`). -/
def stdFailEv : IterEvent :=
  { fetch := .stdExc "curl timeout", cb := .ok, recov := revNone }

/-- A fully successful iteration with reply index `i`. -/
def succEv (i : Nat) : IterEvent :=
  { fetch := .success i, cb := .ok, recov := revNone }



/-! ### Helper lemmas -/

theorem runInit_max_failures (cfg : WatchCfg) (ep pi : Nat) (ho : Bool) :
    (runInit cfg ep ho pi).max_failures = MAX_FAILURES := by
  unfold runInit
  split
  · rfl
  · split <;> rfl

theorem runRecovery_max_failures (cfg : WatchCfg) (st : WatchState)
    (rev : RecoveryEvent) :
    (runRecovery cfg st rev).1.max_failures = st.max_failures := by
  unfold runRecovery
  dsimp only
  split
  · rfl
  · split
    · rfl
    · split <;> rfl

theorem handleReplyExc_max_failures (cfg : WatchCfg) (st : WatchState)
    (code : Int) (rev : RecoveryEvent) :
    (handleReplyExc cfg st code rev).1.max_failures = st.max_failures - 1 := by
  unfold handleReplyExc
  split
  · simp only [failDec, runRecovery_max_failures]
  · rfl

theorem runIter_fails_max_failures (cfg : WatchCfg) (st : WatchState)
    (ev : IterEvent) (h : iterFails ev = true) :
    (runIter cfg st ev).1.max_failures = st.max_failures - 1 := by
  obtain ⟨fetch, cb, recov⟩ := ev
  cases fetch with
  | success i =>
      cases cb with
      | ok => simp [iterFails, iterSucceeds] at h
      | throwReply code =>
          simpa [runIter] using handleReplyExc_max_failures cfg st code recov
      | throwStd m => rfl
  | replyExc code =>
      simpa [runIter] using handleReplyExc_max_failures cfg st code recov
  | stdExc m => rfl

theorem runIter_acts_head (cfg : WatchCfg) (st : WatchState) (ev : IterEvent) :
    ∃ t, (runIter cfg st ev).2 = Act.request st.watch_url :: t := by
  obtain ⟨fetch, cb, recov⟩ := ev
  cases fetch with
  | success i =>
      cases cb with
      | ok => exact ⟨_, rfl⟩
      | throwReply code =>
          refine ⟨Act.callbackWatch i :: (handleReplyExc cfg st code recov).2, ?_⟩
          simp [runIter]
      | throwStd m => exact ⟨_, rfl⟩
  | replyExc code =>
      refine ⟨(handleReplyExc cfg st code recov).2, ?_⟩
      simp [runIter]
  | stdExc m => exact ⟨_, rfl⟩

theorem runAux_budget_zero (cfg : WatchCfg) (st : WatchState)
    (evs : List IterEvent) (h : st.max_failures = 0) :
    runAux cfg st evs = ([], .clientError "watch failed or timedout" st) := by
  cases evs <;> simp [runAux, runExit, h]

theorem runAux_cons (cfg : WatchCfg) (st : WatchState) (ev : IterEvent)
    (evs : List IterEvent) (h : st.max_failures ≠ 0) :
    runAux cfg st (ev :: evs)
      = ((runIter cfg st ev).2 ++ (runAux cfg (runIter cfg st ev).1 evs).1,
         (runAux cfg (runIter cfg st ev).1 evs).2) := by
  simp [runAux, h]

theorem runAux_nil_acts (cfg : WatchCfg) (st : WatchState) :
    (runAux cfg st []).1 = [] := by
  unfold runAux
  split <;> rfl

theorem runAux_no_normal_return (cfg : WatchCfg) :
    ∀ (evs : List IterEvent) (st : WatchState) (stf : WatchState),
      (runAux cfg st evs).2 ≠ RunOutcome.normalReturn stf := by
  intro evs
  induction evs with
  | nil =>
      intro st stf
      unfold runAux runExit
      split
      · simp
      · simp
  | cons ev evs ih =>
      intro st stf
      by_cases h : st.max_failures = 0
      · rw [runAux_budget_zero cfg st _ h]
        simp
      · rw [runAux_cons cfg st ev evs h]
        exact ih _ stf

theorem runAux_allFail_exhaust (cfg : WatchCfg) :
    ∀ (evs : List IterEvent) (st : WatchState) (rest : List IterEvent),
      (∀ ev ∈ evs, iterFails ev = true) →
      evs.length = st.max_failures → st.max_failures ≠ 0 →
      runAux cfg st (evs ++ rest) = runAux cfg st evs ∧
      ∃ stf, (runAux cfg st evs).2 = .clientError "watch failed or timedout" stf := by
  intro evs
  induction evs with
  | nil =>
      intro st rest hf hlen hmf
      exact absurd hlen.symm hmf
  | cons ev evs ih =>
      intro st rest hf hlen hmf
      have hmf1 : (runIter cfg st ev).1.max_failures = evs.length := by
        rw [runIter_fails_max_failures cfg st ev (hf ev (List.mem_cons_self ev evs))]
        simp only [List.length_cons] at hlen
        omega
      rcases Nat.eq_zero_or_pos evs.length with hz | hpos
      · have hevs : evs = [] := List.length_eq_zero.mp hz
        subst hevs
        have hz1 : (runIter cfg st ev).1.max_failures = 0 := by
          rw [hmf1]
          rfl
        constructor
        · rw [List.cons_append, List.nil_append,
            runAux_cons cfg st ev rest hmf, runAux_cons cfg st ev [] hmf,
            runAux_budget_zero cfg _ rest hz1, runAux_budget_zero cfg _ [] hz1]
        · refine ⟨(runIter cfg st ev).1, ?_⟩
          rw [runAux_cons cfg st ev [] hmf, runAux_budget_zero cfg _ [] hz1]
      · have hmf2 : (runIter cfg st ev).1.max_failures ≠ 0 := by omega
        obtain ⟨heq, stf, hcl⟩ :=
          ih (runIter cfg st ev).1 rest
            (fun e he => hf e (List.mem_cons_of_mem ev he)) hmf1.symm hmf2
        constructor
        · rw [List.cons_append, runAux_cons cfg st ev (evs ++ rest) hmf,
            runAux_cons cfg st ev evs hmf, heq]
        · refine ⟨stf, ?_⟩
          rw [runAux_cons cfg st ev evs hmf]
          exact hcl

theorem runAux_allFail_pending (cfg : WatchCfg) :
    ∀ (evs : List IterEvent) (st : WatchState),
      (∀ ev ∈ evs, iterFails ev = true) →
      evs.length < st.max_failures →
      ∃ a st2, runAux cfg st evs = (a, .pending st2) ∧
        st2.max_failures = st.max_failures - evs.length := by
  intro evs
  induction evs with
  | nil =>
      intro st hf hlen
      have hmf : st.max_failures ≠ 0 := by omega
      refine ⟨[], st, ?_, by simp⟩
      simp [runAux, hmf]
  | cons ev evs ih =>
      intro st hf hlen
      have hmf : st.max_failures ≠ 0 := by
        simp only [List.length_cons] at hlen
        omega
      have hmf1 : (runIter cfg st ev).1.max_failures = st.max_failures - 1 :=
        runIter_fails_max_failures cfg st ev (hf ev (List.mem_cons_self ev evs))
      have hlen1 : evs.length < (runIter cfg st ev).1.max_failures := by
        rw [hmf1]
        simp only [List.length_cons] at hlen
        omega
      obtain ⟨a, st2, heq, hmf2⟩ :=
        ih (runIter cfg st ev).1 (fun e he => hf e (List.mem_cons_of_mem ev he)) hlen1
      refine ⟨(runIter cfg st ev).2 ++ a, st2, ?_, ?_⟩
      · rw [runAux_cons cfg st ev evs hmf, heq]
      · rw [hmf2, hmf1]
        simp only [List.length_cons]
        omega

theorem runAux_append_pending (cfg : WatchCfg) :
    ∀ (l1 : List IterEvent) (st st1 : WatchState) (a1 : List Act)
      (l2 : List IterEvent),
      runAux cfg st l1 = (a1, .pending st1) →
      runAux cfg st (l1 ++ l2)
        = (a1 ++ (runAux cfg st1 l2).1, (runAux cfg st1 l2).2) := by
  intro l1
  induction l1 with
  | nil =>
      intro st st1 a1 l2 h
      by_cases hmf : st.max_failures = 0
      · rw [runAux_budget_zero cfg st [] hmf] at h
        exact absurd (congrArg Prod.snd h) (by simp)
      · simp only [runAux, if_neg hmf, Prod.mk.injEq] at h
        obtain ⟨ha, hst⟩ := h
        have hst1 : st1 = st := by
          cases hst
          rfl
        subst hst1
        rw [List.nil_append, ← ha, List.nil_append]
  | cons ev l1 ih =>
      intro st st1 a1 l2 h
      by_cases hmf : st.max_failures = 0
      · rw [runAux_budget_zero cfg st _ hmf] at h
        exact absurd (congrArg Prod.snd h) (by simp)
      · rw [runAux_cons cfg st ev l1 hmf] at h
        obtain ⟨ha, hout⟩ := Prod.mk.injEq .. ▸ h
        rw [List.cons_append, runAux_cons cfg st ev (l1 ++ l2) hmf,
          ih (runIter cfg st ev).1 st1 (runAux cfg (runIter cfg st ev).1 l1).1 l2 ?_]
        · rw [← ha, List.append_assoc]
        · rw [← hout]

theorem isPrefixOf_self (l : List Char) : l.isPrefixOf l = true := by
  induction l with
  | nil => rfl
  | cons c cs ih => simp [List.isPrefixOf, ih]

theorem hasInfix_of_isPrefixOf (label l : List Char)
    (h : label.isPrefixOf l = true) : hasInfix label l = true := by
  cases l with
  | nil =>
      cases label with
      | nil => rfl
      | cons c cs => simp [List.isPrefixOf] at h
  | cons c cs => simp [hasInfix, h]

theorem hasInfix_append_left (label : List Char) :
    ∀ (pre l : List Char), label.isPrefixOf l = true →
      hasInfix label (pre ++ l) = true := by
  intro pre
  induction pre with
  | nil =>
      intro l h
      simpa using hasInfix_of_isPrefixOf label l h
  | cons c cs ih =>
      intro l h
      have hrec := ih l h
      simp [hasInfix, hrec]

theorem scanLines_notFound (lines : List (List Char))
    (h : ∀ l ∈ lines, hasInfix etcd_index_label.data l = false) :
    scanLines lines = .notFound := by
  induction lines with
  | nil => rfl
  | cons line rest ih =>
      have hl : hasInfix etcd_index_label.data line = false :=
        h line (List.mem_cons_self line rest)
      simp only [scanLines, hl, if_false]
      simpa using ih fun l hm => h l (List.mem_cons_of_mem line hm)

theorem scanLines_firstMatch (line : List Char)
    (hline : hasInfix etcd_index_label.data line = true) :
    ∀ (pre : List (List Char)) (post : List (List Char)),
      (∀ l ∈ pre, hasInfix etcd_index_label.data l = false) →
      scanLines (pre ++ line :: post)
        = match stoiCpp (substrFrom line etcd_index_label.length) with
          | some v => .found v
          | none => .excThrown := by
  intro pre
  induction pre with
  | nil =>
      intro post _
      simp only [List.nil_append, scanLines, hline, if_true]
      have harg : 1 + etcd_index_label.length - 1 = etcd_index_label.length := by
        omega
      simp [harg]
  | cons p ps ih =>
      intro post hp
      have hpf : hasInfix etcd_index_label.data p = false :=
        hp p (List.mem_cons_self p ps)
      simp only [List.cons_append, scanLines, hpf, if_false]
      simpa using ih post fun l hm => hp l (List.mem_cons_of_mem p hm)

theorem runRecovery_fetchFail (cfg : WatchCfg) (st : WatchState)
    (rev : RecoveryEvent) (h : rev.fetchOk = false) :
    runRecovery cfg st rev
      = ({ st with enable_header_ := true },
         [Act.request (cfg.url_prefix_ ++ cfg.key)]) := by
  simp [runRecovery, h]

theorem runRecovery_cbFail (cfg : WatchCfg) (st : WatchState)
    (rev : RecoveryEvent) (hf : rev.fetchOk = true) (hc : rev.callbackOk = false) :
    runRecovery cfg st rev
      = ({ st with enable_header_ := true },
         [Act.request (cfg.url_prefix_ ++ cfg.key),
          Act.callbackSnapshot rev.snapshotIndex]) := by
  simp [runRecovery, hf, hc]

theorem runRecovery_ok (cfg : WatchCfg) (st : WatchState)
    (rev : RecoveryEvent) (hf : rev.fetchOk = true) (hc : rev.callbackOk = true) :
    runRecovery cfg st rev
      = ((match scanHeaderText rev.headerText with
          | .found v =>
              { st with prev_index_ := intToIndex v, enable_header_ := false,
                        watch_url := wait_url_base cfg ++ toString (intToIndex v + 1) }
          | .notFound =>
              { st with enable_header_ := false,
                        watch_url := wait_url_base cfg ++ toString (st.prev_index_ + 1) }
          | .excThrown => { st with enable_header_ := true }),
         [Act.request (cfg.url_prefix_ ++ cfg.key),
          Act.callbackSnapshot rev.snapshotIndex]) := by
  cases hscan : scanHeaderText rev.headerText with
  | found v => simp [runRecovery, hf, hc, hscan]
  | notFound => simp [runRecovery, hf, hc, hscan]
  | excThrown => simp [runRecovery, hf, hc, hscan]

theorem runIter_success (cfg : WatchCfg) (st : WatchState) (i : Nat)
    (rev : RecoveryEvent) :
    runIter cfg st { fetch := .success i, cb := .ok, recov := rev }
      = ({ st with prev_index_ := i,
                   watch_url := wait_url_base cfg ++ toString (i + 1),
                   max_failures := MAX_FAILURES },
         [Act.request st.watch_url, Act.callbackWatch i]) := rfl

theorem runIter_succeeds_max_failures (cfg : WatchCfg) (st : WatchState)
    (ev : IterEvent) (h : iterSucceeds ev = true) :
    (runIter cfg st ev).1.max_failures = MAX_FAILURES := by
  obtain ⟨fetch, cb, recov⟩ := ev
  cases fetch with
  | success i =>
      cases cb with
      | ok => rfl
      | throwReply c => simp [iterSucceeds] at h
      | throwStd m => simp [iterSucceeds] at h
  | replyExc c => simp [iterSucceeds] at h
  | stdExc m => simp [iterSucceeds] at h

/-! ### Claim theorems -/

/-- C1: the claim says that with a known starting cursor `c` the first
long-poll URL is `prefix + key + "?wait=true&waitIndex=" + (c+1)`.  The
source appends the bare number to `watch_url` (which still holds
`watch_url_base`) instead of to `wait_url_base`, so with `prevIndex = 42`
the first request URL is `".../k?wait=true43"`, with a cached cursor 7 it is
`".../k?wait=true8"`, and only the no-cursor case (plain
`".../k?wait=true"`) matches the claim. -/
theorem c1_first_url_missing_waitIndex :
    (runInit mkCfg 0 false 42).watch_url
      = "http://example:2379/v2/keys/k?wait=true43"
    ∧ (runInit mkCfg 0 false 42).watch_url
      ≠ "http://example:2379/v2/keys/k?wait=true&waitIndex=43"
    ∧ (watchRun mkCfg 0 false 42 [stdFailEv]).1
      = [Act.request "http://example:2379/v2/keys/k?wait=true43"]
    ∧ (runInit mkCfg 7 false 0).watch_url
      = "http://example:2379/v2/keys/k?wait=true8"
    ∧ (runInit mkCfg 0 false 0).watch_url
      = "http://example:2379/v2/keys/k?wait=true" := by
  refine ⟨by decide, by decide, by decide, by decide, by decide⟩

/-- C2: over any oracle trace of `MAX_FAILURES` consecutive failing
iterations, `Run` ends with the `ClientException("watch failed or
timedout")`, consumes no further oracle events (no further requests), and no
trace whatsoever makes `Run` return normally. -/
theorem c2_failure_budget_exhaustion (cfg : WatchCfg) (ep pi : Nat)
    (ho : Bool) (evs rest : List IterEvent)
    (hfail : ∀ ev ∈ evs, iterFails ev = true)
    (hlen : evs.length = MAX_FAILURES) :
    (∃ stf, (watchRun cfg ep ho pi evs).2
        = .clientError "watch failed or timedout" stf)
    ∧ watchRun cfg ep ho pi (evs ++ rest) = watchRun cfg ep ho pi evs
    ∧ ∀ (evsAny : List IterEvent) (stf : WatchState),
        (watchRun cfg ep ho pi evsAny).2 ≠ RunOutcome.normalReturn stf := by
  have hmf : (runInit cfg ep ho pi).max_failures = MAX_FAILURES :=
    runInit_max_failures cfg ep pi ho
  have hlen2 : evs.length = (runInit cfg ep ho pi).max_failures := by
    rw [hmf, hlen]
  have hne : (runInit cfg ep ho pi).max_failures ≠ 0 := by
    rw [hmf]
    decide
  obtain ⟨heq, hcl⟩ :=
    runAux_allFail_exhaust cfg evs (runInit cfg ep ho pi) rest hfail hlen2 hne
  exact ⟨hcl, heq, fun evsAny stf => runAux_no_normal_return cfg evsAny _ stf⟩

/-- Witness for C2 at a concrete trace of five transport failures. -/
theorem c2_failure_budget_exhaustion_witness :
    ∃ stf, (watchRun mkCfg 0 false 42 (List.replicate 5 stdFailEv)).2
      = .clientError "watch failed or timedout" stf :=
  (c2_failure_budget_exhaustion mkCfg 0 42 false (List.replicate 5 stdFailEv)
    [] (by decide) (by decide)).1

/-- C3: one fully successful iteration resets `max_failures` to
`MAX_FAILURES`; consequently a trace of `MAX_FAILURES - 1` failures, one
success, and another `MAX_FAILURES - 1` failures leaves the loop alive
(outcome `pending`) with one unit of budget remaining. -/
theorem c3_budget_reset (cfg : WatchCfg) (ep pi : Nat) (ho : Bool)
    (f1 f2 : List IterEvent) (s : IterEvent)
    (h1 : ∀ ev ∈ f1, iterFails ev = true)
    (hl1 : f1.length = MAX_FAILURES - 1)
    (hs : iterSucceeds s = true)
    (h2 : ∀ ev ∈ f2, iterFails ev = true)
    (hl2 : f2.length = MAX_FAILURES - 1) :
    (∀ (st : WatchState) (ev : IterEvent), iterSucceeds ev = true →
        (runIter cfg st ev).1.max_failures = MAX_FAILURES)
    ∧ ∃ stf, (watchRun cfg ep ho pi (f1 ++ s :: f2)).2 = .pending stf
        ∧ stf.max_failures = 1 := by
  refine ⟨fun st ev h => runIter_succeeds_max_failures cfg st ev h, ?_⟩
  have hmf0 : (runInit cfg ep ho pi).max_failures = MAX_FAILURES :=
    runInit_max_failures cfg ep pi ho
  have hl1b : f1.length < (runInit cfg ep ho pi).max_failures := by
    rw [hmf0, hl1]
    decide
  obtain ⟨a1, st1, heq1, hmf1⟩ :=
    runAux_allFail_pending cfg f1 (runInit cfg ep ho pi) h1 hl1b
  have hmf1b : st1.max_failures = 1 := by
    rw [hmf1, hmf0, hl1]
    decide
  have hmf1ne : st1.max_failures ≠ 0 := by
    rw [hmf1b]
    decide
  have hs5 : (runIter cfg st1 s).1.max_failures = MAX_FAILURES :=
    runIter_succeeds_max_failures cfg st1 s hs
  have hl2b : f2.length < (runIter cfg st1 s).1.max_failures := by
    rw [hs5, hl2]
    decide
  obtain ⟨a2, st2, heq2, hmf2⟩ :=
    runAux_allFail_pending cfg f2 (runIter cfg st1 s).1 h2 hl2b
  have hcons : runAux cfg st1 (s :: f2)
      = ((runIter cfg st1 s).2 ++ a2, RunOutcome.pending st2) := by
    rw [runAux_cons cfg st1 s f2 hmf1ne, heq2]
  have happ := runAux_append_pending cfg f1 (runInit cfg ep ho pi) st1 a1
    (s :: f2) heq1
  refine ⟨st2, ?_, ?_⟩
  · show (runAux cfg (runInit cfg ep ho pi) (f1 ++ s :: f2)).2 = .pending st2
    rw [happ, hcons]
  · rw [hmf2, hs5, hl2]
    decide

/-- Witness for C3 at the concrete trace 4 failures, success(7), 4 failures. -/
theorem c3_budget_reset_witness :
    ∃ stf, (watchRun mkCfg 0 false 0
        (List.replicate 4 stdFailEv ++ succEv 7 :: List.replicate 4 stdFailEv)).2
      = RunOutcome.pending stf ∧ stf.max_failures = 1 :=
  (c3_budget_reset mkCfg 0 0 false (List.replicate 4 stdFailEv)
    (List.replicate 4 stdFailEv) (succEv 7) (by decide) (by decide)
    (by decide) (by decide) (by decide)).2

/-- C4: a successful iteration with reply index `i` sets the cursor to `i`
and recomputes `watch_url` as `wait_url_base ++ toString (i+1)`, which
contains the substring `waitIndex=<i+1>`; the index of the next request is
`i + 1`, hence different from every index `j ≤ i` already observed; and in
the concrete scenario (cursor 0, first reply index 42) the callback runs
once and the next request URL carries `waitIndex=43`. -/
theorem c4_monotonic_delivery (cfg : WatchCfg) (st : WatchState) (i j : Nat)
    (ev2 : IterEvent) (rev : RecoveryEvent) (hj : j ≤ i) :
    ((runIter cfg st { fetch := .success i, cb := .ok, recov := rev }).1.prev_index_
      = i)
    ∧ ((runIter cfg st { fetch := .success i, cb := .ok, recov := rev }).1.watch_url
      = wait_url_base cfg ++ toString (i + 1))
    ∧ hasInfix ("waitIndex=" ++ toString (i + 1)).data
        ((runIter cfg st
          { fetch := .success i, cb := .ok, recov := rev }).1.watch_url).data
      = true
    ∧ ((runIter cfg st { fetch := .success i, cb := .ok, recov := rev }).1.prev_index_
        + 1 ≠ j)
    ∧ (watchRun mkCfg 0 false 0 [succEv 42, ev2]).1.take 3
      = [Act.request (watch_url_base mkCfg),
         Act.callbackWatch 42,
         Act.request (wait_url_base mkCfg ++ toString 43)] := by
  refine ⟨rfl, rfl, ?_, by simpa using Nat.ne_of_gt (Nat.lt_succ_of_le hj), ?_⟩
  · show hasInfix ("waitIndex=" ++ toString (i + 1)).data
        (wait_url_base cfg ++ toString (i + 1)).data = true
    have hdata : (wait_url_base cfg ++ toString (i + 1)).data
        = ((watch_url_base cfg).data ++ ['&'])
            ++ ("waitIndex=" ++ toString (i + 1)).data := by
      simp only [String.data_append, wait_url_base]
      simp [List.append_assoc]
    rw [hdata]
    exact hasInfix_append_left _ _ _ (isPrefixOf_self _)
  · obtain ⟨t, ht⟩ := runIter_acts_head mkCfg
      ((runIter mkCfg (runInit mkCfg 0 false 0) (succEv 42)).1) ev2
    have h0 : (runInit mkCfg 0 false 0).max_failures ≠ 0 := by decide
    have h1 : ((runIter mkCfg (runInit mkCfg 0 false 0)
        (succEv 42)).1).max_failures ≠ 0 := by decide
    show (runAux mkCfg (runInit mkCfg 0 false 0) [succEv 42, ev2]).1.take 3 = _
    rw [runAux_cons mkCfg _ _ _ h0, runAux_cons mkCfg _ _ _ h1]
    simp only [ht, runAux_nil_acts, List.append_nil, List.cons_append,
      List.append_assoc]
    have hiter : (runIter mkCfg (runInit mkCfg 0 false 0) (succEv 42)).2
        = [Act.request (runInit mkCfg 0 false 0).watch_url,
           Act.callbackWatch 42] := rfl
    rw [hiter]
    simp only [List.cons_append, List.take_succ_cons, List.take_zero,
      List.nil_append]
    decide

/-- Witness for C4 at cursor 0, reply index 42, already-observed index 42. -/
theorem c4_monotonic_delivery_witness :
    (runIter mkCfg
        { prev_index_ := 0, watch_url := "u", max_failures := 5,
          enable_header_ := false }
        { fetch := .success 42, cb := .ok, recov := revNone }).1.prev_index_ = 42
    ∧ (runIter mkCfg
        { prev_index_ := 0, watch_url := "u", max_failures := 5,
          enable_header_ := false }
        { fetch := .success 42, cb := .ok, recov := revNone }).1.prev_index_
        + 1 ≠ 42 := by
  have h := c4_monotonic_delivery mkCfg
    { prev_index_ := 0, watch_url := "u", max_failures := 5,
      enable_header_ := false }
    42 42 stdFailEv revNone (by decide)
  exact ⟨h.1, h.2.2.2.1⟩

theorem isPrefixOf_append_right (l t : List Char) :
    l.isPrefixOf (l ++ t) = true := by
  induction l with
  | nil => simp [List.isPrefixOf]
  | cons c cs ih => simp [List.isPrefixOf, ih]

theorem runIter_replyExc_401 (cfg : WatchCfg) (st : WatchState)
    (cb : CbOutcome) (rev : RecoveryEvent) :
    runIter cfg st { fetch := .replyExc 401, cb := cb, recov := rev }
      = (failDec (runRecovery cfg st rev).1,
         Act.request st.watch_url :: (runRecovery cfg st rev).2) := by
  simp [runIter, handleReplyExc]

theorem runIter_success_cbReply401 (cfg : WatchCfg) (st : WatchState)
    (i : Nat) (rev : RecoveryEvent) :
    runIter cfg st { fetch := .success i, cb := .throwReply 401, recov := rev }
      = (failDec (runRecovery cfg st rev).1,
         Act.request st.watch_url :: Act.callbackWatch i
           :: (runRecovery cfg st rev).2) := by
  simp [runIter, handleReplyExc]

/-- C5: the 401 path runs exactly the recovery sub-protocol; recovery issues
a bare GET on `url_prefix_ + key`, invokes the callback with the snapshot
reply when the fetch decodes, and scans the captured header text line by
line for `X-Etcd-Index: `: with no matching line the cursor is unchanged;
when the first matching line is a well-formed `X-Etcd-Index: <value>` header
whose value parses, the parsed value becomes the new cursor (and seeds the
recomputed watch URL); when the first matching line's parse throws, the
cursor is unchanged. -/
theorem c5_recovery_header_scan (cfg : WatchCfg) (st : WatchState)
    (rev : RecoveryEvent) (cb : CbOutcome)
    (pre post : List (List Char)) (s line : List Char) (v : Int) :
    (runIter cfg st { fetch := .replyExc 401, cb := cb, recov := rev }
        = (failDec (runRecovery cfg st rev).1,
           Act.request st.watch_url :: (runRecovery cfg st rev).2))
    ∧ (runRecovery cfg st rev).2.head?
        = some (Act.request (cfg.url_prefix_ ++ cfg.key))
    ∧ (rev.fetchOk = true →
        Act.callbackSnapshot rev.snapshotIndex ∈ (runRecovery cfg st rev).2)
    ∧ (rev.fetchOk = true → rev.callbackOk = true →
        (∀ l ∈ getlineLines rev.headerText.data,
          hasInfix etcd_index_label.data l = false) →
        (runRecovery cfg st rev).1.prev_index_ = st.prev_index_)
    ∧ (rev.fetchOk = true → rev.callbackOk = true →
        getlineLines rev.headerText.data
          = pre ++ (etcd_index_label.data ++ s) :: post →
        (∀ l ∈ pre, hasInfix etcd_index_label.data l = false) →
        stoiCpp (String.mk s) = some v →
        (runRecovery cfg st rev).1.prev_index_ = intToIndex v
          ∧ (runRecovery cfg st rev).1.watch_url
              = wait_url_base cfg ++ toString (intToIndex v + 1))
    ∧ (rev.fetchOk = true → rev.callbackOk = true →
        getlineLines rev.headerText.data = pre ++ line :: post →
        (∀ l ∈ pre, hasInfix etcd_index_label.data l = false) →
        hasInfix etcd_index_label.data line = true →
        stoiCpp (substrFrom line etcd_index_label.length) = none →
        (runRecovery cfg st rev).1.prev_index_ = st.prev_index_) := by
  refine ⟨runIter_replyExc_401 cfg st cb rev, ?_, ?_, ?_, ?_, ?_⟩
  · cases hf : rev.fetchOk with
    | false =>
        rw [runRecovery_fetchFail cfg st rev hf]
        rfl
    | true =>
        cases hc : rev.callbackOk with
        | false =>
            rw [runRecovery_cbFail cfg st rev hf hc]
            rfl
        | true =>
            rw [runRecovery_ok cfg st rev hf hc]
            rfl
  · intro hf
    cases hc : rev.callbackOk with
    | false =>
        rw [runRecovery_cbFail cfg st rev hf hc]
        simp
    | true =>
        rw [runRecovery_ok cfg st rev hf hc]
        simp
  · intro hf hc habsent
    have hscan : scanHeaderText rev.headerText = .notFound :=
      scanLines_notFound (getlineLines rev.headerText.data) habsent
    rw [runRecovery_ok cfg st rev hf hc]
    rw [hscan]
  · intro hf hc hlines hpre hv
    have hmatch : hasInfix etcd_index_label.data (etcd_index_label.data ++ s)
        = true :=
      hasInfix_of_isPrefixOf _ _ (isPrefixOf_append_right _ _)
    have hsub : substrFrom (etcd_index_label.data ++ s) etcd_index_label.length
        = String.mk s := by
      unfold substrFrom
      have : etcd_index_label.length = etcd_index_label.data.length := rfl
      rw [this, List.drop_left]
    have hscan : scanHeaderText rev.headerText = .found v := by
      unfold scanHeaderText
      rw [hlines, scanLines_firstMatch _ hmatch pre post hpre, hsub, hv]
    rw [runRecovery_ok cfg st rev hf hc, hscan]
    exact ⟨rfl, rfl⟩
  · intro hf hc hlines hpre hmatch hnone
    have hscan : scanHeaderText rev.headerText = .excThrown := by
      unfold scanHeaderText
      rw [hlines, scanLines_firstMatch _ hmatch pre post hpre, hnone]
    rw [runRecovery_ok cfg st rev hf hc, hscan]

/-- Witness for C5: a capture whose second line is `X-Etcd-Index: 100`
makes 100 the new cursor. -/
theorem c5_recovery_header_scan_witness :
    (runRecovery mkCfg
        { prev_index_ := 5, watch_url := "u", max_failures := 5,
          enable_header_ := false }
        { fetchOk := true, snapshotIndex := 9, callbackOk := true,
          headerText := "Content-Length: 5\r\nX-Etcd-Index: 100\r\nDate: x"
        }).1.prev_index_
      = 100 := by
  have h := (c5_recovery_header_scan mkCfg
      { prev_index_ := 5, watch_url := "u", max_failures := 5,
        enable_header_ := false }
      { fetchOk := true, snapshotIndex := 9, callbackOk := true,
        headerText := "Content-Length: 5\r\nX-Etcd-Index: 100\r\nDate: x" }
      CbOutcome.ok
      ["Content-Length: 5\r".data] ["Date: x".data] "100\r".data [] 100
    ).2.2.2.2.1 rfl rfl (by decide) (by decide) (by decide)
  exact h.1.trans (by decide)

/-- C6 counterexample: a reply/protocol error with the non-401 code 500
makes `RunOnce` return normally — its `ReplyException` handler has no
rethrow for codes other than 401 — instead of raising the `ClientError` the
claim requires. -/
theorem c6_counterexample_nonstale_reply_error :
    (runOnce mkCfg 0 false 0
        { fetch := .replyExc 500, cb := .ok, recov := revNone }).1
      = .normalReturn (runInit mkCfg 0 false 0) := by
  decide

/-- C6 amended: `RunOnce` raises `ClientException("failed with" + what)`
for every failure caught as a plain `std::exception` — a transport/decode
failure, or a non-`ReplyException` throw from the callback — while a
`ReplyException` with a non-401 code is swallowed silently and `RunOnce`
returns normally with the engine state unchanged. -/
theorem c6_runonce_error_surfacing (cfg : WatchCfg) (ep pi : Nat) (ho : Bool)
    (ev : IterEvent) (msg : String) (i : Nat) (code : Int) :
    (ev.fetch = .stdExc msg →
      (runOnce cfg ep ho pi ev).1
        = .clientError ("failed with" ++ msg) (runInit cfg ep ho pi))
    ∧ (ev.fetch = .success i → ev.cb = .throwStd msg →
      (runOnce cfg ep ho pi ev).1
        = .clientError ("failed with" ++ msg) (runInit cfg ep ho pi))
    ∧ (ev.fetch = .replyExc code → code ≠ 401 →
      (runOnce cfg ep ho pi ev).1 = .normalReturn (runInit cfg ep ho pi)) := by
  obtain ⟨fetch, cb, recov⟩ := ev
  refine ⟨?_, ?_, ?_⟩
  · intro h
    cases h
    rfl
  · intro h1 h2
    cases h1
    cases h2
    rfl
  · intro h hne
    cases h
    simp [runOnce, hne]

/-- Witness for C6's amended claim at a concrete transport failure. -/
theorem c6_runonce_error_surfacing_witness :
    (runOnce mkCfg 0 false 0 stdFailEv).1
      = .clientError ("failed with" ++ "curl timeout")
          (runInit mkCfg 0 false 0) :=
  (c6_runonce_error_surfacing mkCfg 0 0 false stdFailEv "curl timeout" 0 0).1
    rfl

/-- C7: an iteration whose decode reports error code 401 decrements
`max_failures` by exactly 1 for every recovery oracle — succeeding or
failing at any internal step — and the loop then continues with the rest of
the trace: nothing thrown inside recovery escapes the iteration. -/
theorem c7_stale_decrements_budget (cfg : WatchCfg) (st : WatchState)
    (cb : CbOutcome) (rev : RecoveryEvent) (rest : List IterEvent)
    (hmf : st.max_failures ≠ 0) :
    ((runIter cfg st
        { fetch := .replyExc 401, cb := cb, recov := rev }).1.max_failures
      = st.max_failures - 1)
    ∧ runAux cfg st ({ fetch := .replyExc 401, cb := cb, recov := rev } :: rest)
        = ((runIter cfg st { fetch := .replyExc 401, cb := cb, recov := rev }).2
            ++ (runAux cfg
                (runIter cfg st
                  { fetch := .replyExc 401, cb := cb, recov := rev }).1
                rest).1,
           (runAux cfg
              (runIter cfg st
                { fetch := .replyExc 401, cb := cb, recov := rev }).1
              rest).2) := by
  constructor
  · rw [runIter_replyExc_401]
    show (failDec (runRecovery cfg st rev).1).max_failures
      = st.max_failures - 1
    simp [failDec, runRecovery_max_failures]
  · exact runAux_cons cfg st _ rest hmf

/-- Witness for C7 at a failing recovery oracle. -/
theorem c7_stale_decrements_budget_witness :
    (runIter mkCfg
        { prev_index_ := 0, watch_url := "u", max_failures := 5,
          enable_header_ := false }
        { fetch := .replyExc 401, cb := .ok, recov := revNone }).1.max_failures
      = 4 := by
  have h := (c7_stale_decrements_budget mkCfg
    { prev_index_ := 0, watch_url := "u", max_failures := 5,
      enable_header_ := false }
    CbOutcome.ok revNone [] (by decide)).1
  exact h.trans (by decide)

/-- C8 counterexample: a recovery whose bare GET throws leaves
`enable_header_` still `true` when the iteration ends — the
`EnableHeader(false)` call sits inside the `try` block, so the caught
exception skips it; header capture is not restored to its default. -/
theorem c8_counterexample_header_left_enabled :
    ((watchRun mkCfg 0 false 5
        [{ fetch := .replyExc 401, cb := .ok,
           recov := revNone }]).2).state.enable_header_ = true := by
  decide

/-- C8 amended: header capture is disabled again only when every step of the
recovery sub-protocol completes without an exception; if the bare GET or
decode throws, the callback throws, or the index parse throws, the swallowed
exception leaves header capture enabled. -/
theorem c8_header_capture_restore (cfg : WatchCfg) (st : WatchState)
    (rev : RecoveryEvent) :
    (rev.fetchOk = true → rev.callbackOk = true →
      scanHeaderText rev.headerText ≠ .excThrown →
      (runRecovery cfg st rev).1.enable_header_ = false)
    ∧ (rev.fetchOk = false →
      (runRecovery cfg st rev).1.enable_header_ = true)
    ∧ (rev.fetchOk = true → rev.callbackOk = false →
      (runRecovery cfg st rev).1.enable_header_ = true)
    ∧ (rev.fetchOk = true → rev.callbackOk = true →
      scanHeaderText rev.headerText = .excThrown →
      (runRecovery cfg st rev).1.enable_header_ = true) := by
  refine ⟨?_, ?_, ?_, ?_⟩
  · intro hf hc hscan
    rw [runRecovery_ok cfg st rev hf hc]
    cases h : scanHeaderText rev.headerText with
    | found v => rfl
    | notFound => rfl
    | excThrown => exact absurd h hscan
  · intro hf
    rw [runRecovery_fetchFail cfg st rev hf]
  · intro hf hc
    rw [runRecovery_cbFail cfg st rev hf hc]
  · intro hf hc hscan
    rw [runRecovery_ok cfg st rev hf hc, hscan]

/-- Witness for C8's amended claim at a fully successful recovery. -/
theorem c8_header_capture_restore_witness :
    (runRecovery mkCfg
        { prev_index_ := 5, watch_url := "u", max_failures := 5,
          enable_header_ := false }
        { fetchOk := true, snapshotIndex := 0, callbackOk := true,
          headerText := "X-Etcd-Index: 100\r\n" }).1.enable_header_
      = false :=
  (c8_header_capture_restore mkCfg
    { prev_index_ := 5, watch_url := "u", max_failures := 5,
      enable_header_ := false }
    { fetchOk := true, snapshotIndex := 0, callbackOk := true,
      headerText := "X-Etcd-Index: 100\r\n" }).1 rfl rfl (by decide)

theorem runAux_stdExc_prev (cfg : WatchCfg) :
    ∀ (evs : List IterEvent) (st : WatchState),
      (∀ ev ∈ evs, ∃ m, ev.fetch = .stdExc m) →
      ((runAux cfg st evs).2).state.prev_index_ = st.prev_index_ := by
  intro evs
  induction evs with
  | nil =>
      intro st _
      by_cases hmf : st.max_failures = 0
      · rw [runAux_budget_zero cfg st [] hmf]
        rfl
      · simp [runAux, hmf, RunOutcome.state]
  | cons ev evs ih =>
      intro st h
      by_cases hmf : st.max_failures = 0
      · rw [runAux_budget_zero cfg st _ hmf]
        rfl
      · rw [runAux_cons cfg st ev evs hmf]
        obtain ⟨m, hm⟩ := h ev (List.mem_cons_self ev evs)
        obtain ⟨fetch, cb, recov⟩ := ev
        cases hm
        have hrec := ih
          (runIter cfg st
            { fetch := .stdExc m, cb := cb, recov := recov }).1
          (fun e he => h e (List.mem_cons_of_mem _ he))
        exact hrec

/-- C9: a nonzero `prevIndex` argument overwrites the engine's cached
cursor at entry, before the first request; a `Run` whose requests all fail
at the transport level, and a `RunOnce` whose single request fails,
therefore end (or stall) with the cached cursor equal to the passed
`prevIndex`. -/
theorem c9_prevIndex_overwrite (cfg : WatchCfg) (ep pi : Nat) (ho : Bool)
    (evs : List IterEvent) (ev1 : IterEvent) (m : String)
    (hpi : pi ≠ 0)
    (hevs : ∀ ev ∈ evs, ∃ msg, ev.fetch = .stdExc msg)
    (hev1 : ev1.fetch = .stdExc m) :
    (runInit cfg ep ho pi).prev_index_ = pi
    ∧ ((watchRun cfg ep ho pi evs).2).state.prev_index_ = pi
    ∧ ((runOnce cfg ep ho pi ev1).1).state.prev_index_ = pi := by
  have hinit : (runInit cfg ep ho pi).prev_index_ = pi := by
    unfold runInit
    rw [if_pos hpi]
  refine ⟨hinit, ?_, ?_⟩
  · have hrec := runAux_stdExc_prev cfg evs (runInit cfg ep ho pi) hevs
    rw [hinit] at hrec
    exact hrec
  · obtain ⟨fetch, cb, recov⟩ := ev1
    cases hev1
    exact hinit

/-- Witness for C9: `prevIndex = 42` against a cached cursor 7 and three
transport failures. -/
theorem c9_prevIndex_overwrite_witness :
    ((watchRun mkCfg 7 false 42 (List.replicate 3 stdFailEv)).2).state.prev_index_
      = 42 :=
  (c9_prevIndex_overwrite mkCfg 7 42 false (List.replicate 3 stdFailEv)
    stdFailEv "curl timeout" (by decide)
    (fun ev hev => by
      rw [List.eq_of_mem_replicate hev]
      exact ⟨"curl timeout", rfl⟩)
    rfl).2.1

/-- C10 counterexample: a callback that throws `ReplyException` with code
401 (an exception type derived from `std::exception`) is caught by the
`ReplyException` handler, which runs the stale-index recovery: starting from
cursor 5, the recovery's `X-Etcd-Index: 100` header moves the cursor to 100
and the watch URL to `waitIndex=101` — they do not remain unchanged as the
claim requires. -/
theorem c10_counterexample_callback_replyexc :
    ((watchRun mkCfg 0 false 5
        [{ fetch := .success 42, cb := .throwReply 401,
           recov := { fetchOk := true, snapshotIndex := 9, callbackOk := true,
                      headerText := "X-Etcd-Index: 100\r\n" } }]).2
      ).state.prev_index_ = 100
    ∧ ((watchRun mkCfg 0 false 5
        [{ fetch := .success 42, cb := .throwReply 401,
           recov := { fetchOk := true, snapshotIndex := 9, callbackOk := true,
                      headerText := "X-Etcd-Index: 100\r\n" } }]).2
      ).state.watch_url
      = "http://example:2379/v2/keys/k?wait=true&waitIndex=101" := by
  refine ⟨by decide, by decide⟩

/-- C10 amended: a callback exception never escapes the iteration and the
cursor is never advanced to the reply's index; a generic `std::exception`
or a `ReplyException` with a non-401 code costs one unit of budget and
leaves the cursor and watch URL unchanged, while a `ReplyException` with
code 401 costs one unit of budget but runs the stale-index recovery, which
may move the cursor and watch URL. -/
theorem c10_callback_exception_handling (cfg : WatchCfg) (st : WatchState)
    (i : Nat) (m : String) (code : Int) (rev : RecoveryEvent)
    (rest : List IterEvent) (hmf : st.max_failures ≠ 0)
    (hcode : code ≠ 401) :
    (runIter cfg st { fetch := .success i, cb := .throwStd m, recov := rev }
        = (failDec st, [Act.request st.watch_url, Act.callbackWatch i]))
    ∧ (runIter cfg st
        { fetch := .success i, cb := .throwReply code, recov := rev }
        = (failDec st, [Act.request st.watch_url, Act.callbackWatch i]))
    ∧ (runIter cfg st
        { fetch := .success i, cb := .throwReply 401, recov := rev }
        = (failDec (runRecovery cfg st rev).1,
           Act.request st.watch_url :: Act.callbackWatch i
             :: (runRecovery cfg st rev).2))
    ∧ runAux cfg st
        ({ fetch := .success i, cb := .throwStd m, recov := rev } :: rest)
        = ((runIter cfg st
              { fetch := .success i, cb := .throwStd m, recov := rev }).2
            ++ (runAux cfg (failDec st) rest).1,
           (runAux cfg (failDec st) rest).2) := by
  refine ⟨rfl, ?_, runIter_success_cbReply401 cfg st i rev, ?_⟩
  · simp [runIter, handleReplyExc, hcode]
  · exact runAux_cons cfg st _ rest hmf

/-- Witness for C10's amended claim at a concrete throwing callback. -/
theorem c10_callback_exception_handling_witness :
    runIter mkCfg
        { prev_index_ := 0, watch_url := "u", max_failures := 5,
          enable_header_ := false }
        { fetch := .success 42, cb := .throwStd "boom", recov := revNone }
      = (failDec
          { prev_index_ := 0, watch_url := "u", max_failures := 5,
            enable_header_ := false },
         [Act.request "u", Act.callbackWatch 42]) :=
  (c10_callback_exception_handling mkCfg
    { prev_index_ := 0, watch_url := "u", max_failures := 5,
      enable_header_ := false }
    42 "boom" 500 revNone [] (by decide) (by decide)).1

end EtcdWatch
